import Mathlib

set_option autoImplicit false
set_option maxRecDepth 16384

/-!
Shallow embedding of `backend/app/services/llm/prompt_templates.py`:
context formatting for retrieval results, prompt template substitution,
message-list assembly and conversation-history truncation.
-/

/-- A chat message, modelling the Python `Dict[str, str]` shape read through
`msg.get("role")` and `"role" in msg`: an absent key is `none`. -/
structure Message where
  role : Option String
  content : Option String
  deriving DecidableEq, Repr

/-- The `metadata` mapping of a retrieval result. The code reads only the keys
`file_name` and `chunk_index` (with defaults); an absent key is `none`. -/
structure Metadata where
  file_name : Option String
  chunk_index : Option Int
  deriving DecidableEq, Repr

/-- A `RetrievalResult` consumed by the formatter: raw text, relevance score
and source metadata. The Python float score is only ever rendered with fixed
three decimals, so it is modelled in exact fixed point, as an integer count of
thousandths. -/
structure RetrievalResult where
  text : String
  score : Int
  metadata : Metadata
  deriving DecidableEq, Repr

/-- The role string the truncator compares against. -/
def systemRole : String := "system"

/-- The role attached to the prompt that closes a built message list. -/
def userRole : String := "user"

/-- Renders a fixed-point score (thousandths) the way `{score:.3f}` prints it:
optional sign, integer part, a dot, and exactly three digits. -/
def formatScore3 (score : Int) : String :=
  let sign := if score < 0 then "-" else ""
  let n := score.natAbs
  let frac := n % 1000
  let fracStr :=
    if frac < 10 then "00" ++ toString frac
    else if frac < 100 then "0" ++ toString frac
    else toString frac
  sign ++ toString (n / 1000) ++ "." ++ fracStr

/-- The `context_part` f-string built for one result inside
`format_context_from_results`, with `idx` the 1-based position and the
defaults `Unknown` and `N/A` supplied by `metadata.get`. -/
def context_part (idx : Nat) (result : RetrievalResult) : String :=
  let file_name := result.metadata.file_name.getD ("Unknown")
  let chunk_index :=
    match result.metadata.chunk_index with
    | some i => toString i
    | none => "N/A"
  "Document " ++ toString idx ++ " (Source: " ++ file_name ++ ", Chunk: " ++
    chunk_index ++ ", Relevance: " ++ formatScore3 result.score ++ "):\n" ++
    result.text

/-- The list `context_parts` accumulated by
`for idx, result in enumerate(results, 1)`. -/
def context_parts : Nat → List RetrievalResult → List String
  | _, [] => []
  | idx, result :: rest => context_part idx result :: context_parts (idx + 1) rest

/-- The divider `"-" * 80`: eighty dashes. -/
def dashes80 : String := String.mk (List.replicate 80 (Char.ofNat 45))

/-- `format_context_from_results`. The Python return expression is
`"\n\n" + ("-" * 80) + "\n\n".join(context_parts)`, so the divider is
prepended once, in front of the first part, and the parts themselves are
joined by a blank line. -/
def format_context_from_results (results : List RetrievalResult) : String :=
  if results = [] then "No relevant context found."
  else "\n\n" ++ dashes80 ++ String.intercalate ("\n\n") (context_parts 1 results)

/-- One piece of a Python format template: literal text or a named
placeholder. -/
inductive TemplateTok
  | lit (s : String)
  | ph (name : String)
  deriving DecidableEq, Repr

/-- Association-list lookup for the keyword arguments handed to
`str.format`. -/
def lookupArg (env : List (String × String)) (name : String) : Option String :=
  match env with
  | [] => none
  | (k, v) :: rest => if k = name then some v else lookupArg rest name

/-- Python `template.format(**env)`: substitutes each placeholder from `env`,
raising `KeyError` (modelled as `Except.error`) at the first placeholder whose
name is not supplied. -/
def pyFormat (tmpl : List TemplateTok) (env : List (String × String)) :
    Except String String :=
  match tmpl with
  | [] => Except.ok ""
  | TemplateTok.lit s :: rest => (pyFormat rest env).map (fun t => s ++ t)
  | TemplateTok.ph name :: rest =>
    match lookupArg env name with
    | some v => (pyFormat rest env).map (fun t => v ++ t)
    | none => Except.error ("KeyError: " ++ name)

/-- The module constant `SYSTEM_PROMPT`, split into its literal runs and its
placeholders `company_name` (three uses) and `context` (one use). -/
def SYSTEM_PROMPT : List TemplateTok :=
  [TemplateTok.lit ("You are a helpful assistant for "),
   TemplateTok.ph ("company_name"),
   TemplateTok.lit (".\n\nIMPORTANT RULES:\n1. **Casual conversation & Persona** (greetings, closings like \"bye\" or \"thank you\", \"how are you\", your identity, basic company info):\n   - Respond naturally like a helpful human assistant\n   - Be warm, friendly, and highly conversational\n   - Example (greeting): \"I\x27m doing well, thank you! How can I assist you today?\"\n   - Example (closing): \"You\x27re very welcome! Have a great day!\" or \"Goodbye! Feel free to reach out if you need anything else.\"\n   - Don\x27t mention you\x27re an AI unless specifically asked\n   - Your name is MHK Nova, and you are a helpful AI assistant built for "),
   TemplateTok.ph ("company_name"),
   TemplateTok.lit (". (Answer questions like \"who are you\", \"what is MHK Nova\" using this info directly).\n   - Mr. Rajesh is the CEO of the company. (Answer questions about the CEO using this info directly).\n\n2. **Factual/informational questions (excluding persona info above)**: ONLY use the Context below.\n   - No context or answer not found → \"I don\x27t have that information. Please ask about "),
   TemplateTok.ph ("company_name"),
   TemplateTok.lit ("\x27s services or products.\"\n   - Never use general knowledge or make assumptions\n\n3. **When using Context**: Be clear, concise, and cite sources.\n\nContext:\n"),
   TemplateTok.ph ("context")]

/-- The module constant `USER_PROMPT`, with its single placeholder `query`. -/
def USER_PROMPT : List TemplateTok :=
  [TemplateTok.lit ("Question: "),
   TemplateTok.ph ("query"),
   TemplateTok.lit ("\n\nPlease provide a helpful answer based on the context provided.")]

/-- `format_system_prompt`:
`SYSTEM_PROMPT.format(company_name=company_name, context=context)`. -/
def format_system_prompt (company_name context : String) : Except String String :=
  pyFormat SYSTEM_PROMPT [("company_name", company_name), ("context", context)]

/-- `format_user_prompt`: `USER_PROMPT.format(query=query)`. -/
def format_user_prompt (query : String) : Except String String :=
  pyFormat USER_PROMPT [("query", query)]

/-- The fixed template with the placeholders substituted, the result the spec
promises when every placeholder value is supplied. -/
def substTemplate (tmpl : List TemplateTok) (env : List (String × String)) :
    String :=
  match tmpl with
  | [] => ""
  | TemplateTok.lit s :: rest => s ++ substTemplate rest env
  | TemplateTok.ph name :: rest =>
    (lookupArg env name).getD ("") ++ substTemplate rest env

/-- `build_messages`: starts from the system message, extends with the history
when it is truthy (Python `if conversation_history:`, false for `None` and for
the empty list alike), and appends the user message. -/
def build_messages (system_prompt user_prompt : String)
    (conversation_history : Option (List Message)) : List Message :=
  let messages := [Message.mk (some systemRole) (some system_prompt)]
  let messages :=
    match conversation_history with
    | some h => if h = [] then messages else messages ++ h
    | none => messages
  messages ++ [Message.mk (some userRole) (some user_prompt)]

/-- One iteration of the loop in `truncate_conversation_history`: overwrite
the system slot when the role is `system`, append to the others when a role
key is present, skip the message otherwise. -/
def partitionStep (acc : Option Message × List Message) (msg : Message) :
    Option Message × List Message :=
  if msg.role = some systemRole then (some msg, acc.2)
  else if msg.role.isSome then (acc.1, acc.2 ++ [msg])
  else acc

/-- The loop of `truncate_conversation_history`: a left fold of
`partitionStep` starting from no system message and no other messages. -/
def partitionHistory (history : List Message) : Option Message × List Message :=
  history.foldl partitionStep (none, [])

/-- Python `l[-n:]` for a nonnegative `n`: the last `n` elements, except that
`n = 0` yields `l[0:]`, the whole list. -/
def pyTailSlice {α : Type} (l : List α) (n : Nat) : List α :=
  if n = 0 then l else l.drop (l.length - n)

/-- `truncate_conversation_history` (Python default for `max_messages` is 10):
returns `[]` on an empty history, otherwise partitions the history, slices the
non-system messages with `other_msgs[-max_messages:]` when they exceed the cap,
and rebuilds with the retained system message first. -/
def truncate_conversation_history (history : List Message) (max_messages : Nat) :
    List Message :=
  if history = [] then []
  else
    (partitionHistory history).1.toList ++
      (if max_messages < (partitionHistory history).2.length
       then pyTailSlice (partitionHistory history).2 max_messages
       else (partitionHistory history).2)

/-! Derived descriptions of the fold, used by the proofs. -/

/-- The system message retained after scanning `l`, starting from `acc`:
the last member of `l` whose role is `system`, else `acc`. -/
def lastSysFrom (acc : Option Message) : List Message → Option Message
  | [] => acc
  | m :: rest => lastSysFrom (if m.role = some systemRole then some m else acc) rest

/-- Selects the messages the loop appends to `other_msgs`: a role key is
present and it is not the system role. -/
def isOther (m : Message) : Bool :=
  m.role.isSome && !(m.role == some systemRole)

/-- The messages of a history whose role is `system`, in order. -/
def systemMessages (history : List Message) : List Message :=
  history.filter (fun m => m.role == some systemRole)

/-- The non-system messages the truncator keeps: all of them, unless they
exceed the cap, in which case the Python tail slice is applied. -/
def keptOthers (history : List Message) (max_messages : Nat) : List Message :=
  if max_messages < (history.filter isOther).length
  then pyTailSlice (history.filter isOther) max_messages
  else history.filter isOther

/-! Concrete data used by evaluations and witnesses. -/

/-- A concrete user message. -/
def userHi : Message := Message.mk (some userRole) (some ("hi"))

/-- A second concrete user message. -/
def userBye : Message := Message.mk (some userRole) (some ("bye"))

/-- A concrete message with no role key. -/
def noRoleMsg : Message := Message.mk none (some ("stray"))

/-- A concrete system message. -/
def sysA : Message := Message.mk (some systemRole) (some ("first"))

/-- A second concrete system message. -/
def sysB : Message := Message.mk (some systemRole) (some ("second"))

/-- A concrete retrieval result whose metadata has neither key. -/
def resNoMeta : RetrievalResult :=
  RetrievalResult.mk ("gamma") 512 (Metadata.mk none none)

/-- A concrete retrieval result with full metadata. -/
def res1 : RetrievalResult :=
  RetrievalResult.mk ("alpha") 900 (Metadata.mk (some ("a.txt")) (some 0))

/-- A second concrete retrieval result with full metadata. -/
def res2 : RetrievalResult :=
  RetrievalResult.mk ("beta") 250 (Metadata.mk (some ("b.txt")) (some 1))

/-! Lemmas about the partition fold and the kept slice. -/

/-- The fold computes the last system message and the filtered others. -/
theorem foldl_partitionStep (l : List Message) (acc : Option Message)
    (o : List Message) :
    l.foldl partitionStep (acc, o) = (lastSysFrom acc l, o ++ l.filter isOther) := by
  induction l generalizing acc o with
  | nil => simp [lastSysFrom]
  | cons m rest ih =>
    by_cases hs : m.role = some systemRole
    · have hstep : partitionStep (acc, o) m = (some m, o) := by
        simp [partitionStep, hs]
      have hfil : isOther m = false := by
        simp [isOther, hs]
      have hlast : lastSysFrom acc (m :: rest) = lastSysFrom (some m) rest := by
        simp [lastSysFrom, hs]
      rw [List.foldl_cons, hstep, ih, hlast, List.filter_cons]
      simp [hfil]
    · by_cases ho : m.role.isSome
      · have hstep : partitionStep (acc, o) m = (acc, o ++ [m]) := by
          simp [partitionStep, hs, ho]
        have hfil : isOther m = true := by
          simp [isOther, hs, ho]
        have hlast : lastSysFrom acc (m :: rest) = lastSysFrom acc rest := by
          simp [lastSysFrom, hs]
        rw [List.foldl_cons, hstep, ih, hlast, List.filter_cons]
        simp [hfil]
      · have hstep : partitionStep (acc, o) m = (acc, o) := by
          simp [partitionStep, hs, ho]
        have hfil : isOther m = false := by
          simp [isOther, ho]
        have hlast : lastSysFrom acc (m :: rest) = lastSysFrom acc rest := by
          simp [lastSysFrom, hs]
        rw [List.foldl_cons, hstep, ih, hlast, List.filter_cons]
        simp [hfil]

/-- Closed form of the partition. -/
theorem partitionHistory_eq (history : List Message) :
    partitionHistory history = (lastSysFrom none history, history.filter isOther) := by
  have h := foldl_partitionStep history none []
  simpa [partitionHistory] using h

/-- Closed form of the truncator on a nonempty history. -/
theorem truncate_conversation_history_eq (history : List Message)
    (max_messages : Nat) (hne : history ≠ []) :
    truncate_conversation_history history max_messages =
      (lastSysFrom none history).toList ++ keptOthers history max_messages := by
  simp only [truncate_conversation_history, if_neg hne, partitionHistory_eq, keptOthers]

/-- Whatever the fold keeps in the system slot has the system role, provided
the starting accumulator does. -/
theorem lastSysFrom_role (l : List Message) (acc : Option Message)
    (hacc : ∀ m, acc = some m → m.role = some systemRole) :
    ∀ m, lastSysFrom acc l = some m → m.role = some systemRole := by
  induction l generalizing acc with
  | nil => exact hacc
  | cons x rest ih =>
    intro m hm
    by_cases hs : x.role = some systemRole
    · have h1 : lastSysFrom acc (x :: rest) = lastSysFrom (some x) rest := by
        simp [lastSysFrom, hs]
      rw [h1] at hm
      refine ih (some x) ?_ m hm
      intro m' hm'
      have hx : x = m' := Option.some.inj hm'
      exact hx ▸ hs
    · have h1 : lastSysFrom acc (x :: rest) = lastSysFrom acc rest := by
        simp [lastSysFrom, hs]
      rw [h1] at hm
      exact ih acc hacc m hm

/-- Scanning a list without system messages leaves the accumulator alone. -/
theorem lastSysFrom_of_no_system (l : List Message)
    (hl : ∀ m ∈ l, ¬ m.role = some systemRole) (acc : Option Message) :
    lastSysFrom acc l = acc := by
  induction l generalizing acc with
  | nil => rfl
  | cons x rest ih =>
    have hx : ¬ x.role = some systemRole := hl x (by simp)
    have h1 : lastSysFrom acc (x :: rest) = lastSysFrom acc rest := by
      simp [lastSysFrom, hx]
    rw [h1]
    exact ih (fun m hm => hl m (by simp [hm])) acc

/-- The fold keeps exactly the last system message of the history. -/
theorem lastSysFrom_eq_getLast (history : List Message) (acc : Option Message) :
    lastSysFrom acc history = ((systemMessages history).getLast?).elim acc some := by
  induction history generalizing acc with
  | nil => simp [lastSysFrom, systemMessages]
  | cons x rest ih =>
    by_cases hs : x.role = some systemRole
    · have h1 : lastSysFrom acc (x :: rest) = lastSysFrom (some x) rest := by
        simp [lastSysFrom, hs]
      have h2 : systemMessages (x :: rest) = x :: systemMessages rest := by
        simp [systemMessages, List.filter_cons, hs]
      rw [h1, ih (some x), h2]
      cases hrest : systemMessages rest with
      | nil => simp
      | cons y ys =>
        rw [List.getLast?_cons_cons]
        cases hg : (y :: ys).getLast? with
        | none => simp at hg
        | some z => simp
    · have h1 : lastSysFrom acc (x :: rest) = lastSysFrom acc rest := by
        simp [lastSysFrom, hs]
      have h2 : systemMessages (x :: rest) = systemMessages rest := by
        simp [systemMessages, List.filter_cons, hs]
      rw [h1, ih acc, h2]

/-- Unfolding lemma for `keptOthers`. -/
theorem keptOthers_def (l : List Message) (n : Nat) :
    keptOthers l n =
      if n < (l.filter isOther).length
      then pyTailSlice (l.filter isOther) n
      else l.filter isOther := rfl

/-- The Python tail slice returns a subset of the list. -/
theorem pyTailSlice_subset {α : Type} (l : List α) (n : Nat) :
    pyTailSlice l n ⊆ l := by
  unfold pyTailSlice
  by_cases h0 : n = 0
  · rw [if_pos h0]
    exact fun x hx => hx
  · rw [if_neg h0]
    exact List.drop_subset _ _

/-- The kept others come from the filtered others. -/
theorem keptOthers_subset (history : List Message) (max_messages : Nat) :
    keptOthers history max_messages ⊆ history.filter isOther := by
  rw [keptOthers_def]
  by_cases hlt : max_messages < (history.filter isOther).length
  · rw [if_pos hlt]
    exact pyTailSlice_subset _ _
  · rw [if_neg hlt]
    exact fun x hx => hx

/-- Every kept other message satisfies the filter predicate. -/
theorem isOther_of_mem_keptOthers {history : List Message} {max_messages : Nat}
    {m : Message} (hm : m ∈ keptOthers history max_messages) : isOther m = true :=
  (List.mem_filter.mp (keptOthers_subset history max_messages hm)).2

/-- An other message does not carry the system role. -/
theorem role_ne_system_of_isOther {m : Message} (h : isOther m = true) :
    m.role ≠ some systemRole := by
  simp only [isOther, Bool.and_eq_true, Bool.not_eq_true', beq_eq_false_iff_ne,
    ne_eq] at h
  exact h.2

/-- An other message carries a role key. -/
theorem role_isSome_of_isOther {m : Message} (h : isOther m = true) :
    m.role.isSome = true := by
  simp only [isOther, Bool.and_eq_true] at h
  exact h.1

/-- Filtering the kept others is the identity. -/
theorem filter_keptOthers (history : List Message) (max_messages : Nat) :
    (keptOthers history max_messages).filter isOther =
      keptOthers history max_messages :=
  List.filter_eq_self.mpr (fun _ hm => isOther_of_mem_keptOthers hm)

/-- With a cap of at least one, the kept others respect the cap. -/
theorem keptOthers_length_le (history : List Message) (max_messages : Nat)
    (h1 : 1 ≤ max_messages) :
    (keptOthers history max_messages).length ≤ max_messages := by
  rw [keptOthers_def]
  by_cases hlt : max_messages < (history.filter isOther).length
  · rw [if_pos hlt]
    unfold pyTailSlice
    rw [if_neg (by omega)]
    simp only [List.length_drop]
    omega
  · rw [if_neg hlt]
    omega

/-- Re-slicing the kept others changes nothing: either the cap was already
respected, or the cap is zero and the Python slice `[-0:]` is the identity. -/
theorem keptOthers_stable (history : List Message) (max_messages : Nat) :
    (if max_messages < (keptOthers history max_messages).length
     then pyTailSlice (keptOthers history max_messages) max_messages
     else keptOthers history max_messages) = keptOthers history max_messages := by
  by_cases hlt : max_messages < (keptOthers history max_messages).length
  · rw [if_pos hlt]
    by_cases h0 : max_messages = 0
    · subst h0
      unfold pyTailSlice
      rw [if_pos rfl]
    · exact absurd hlt (by
        have := keptOthers_length_le history max_messages (by omega)
        omega)
  · rw [if_neg hlt]

/-! Claim theorems. -/

/-- Claim C6: on the empty retrieval list, `format_context_from_results`
returns exactly the fixed sentinel string. -/
theorem format_context_from_results_empty :
    format_context_from_results [] = "No relevant context found." := rfl

/-- Claim C2: evaluation at the failing input `max_messages = 0` with one user
message. Python `other_msgs[-0:]` is the whole list, so nothing is dropped:
the output keeps the message instead of being empty, although the cap on
non-system messages is zero and is exceeded. -/
theorem truncate_conversation_history_maxzero_keeps_all :
    truncate_conversation_history [userHi] 0 = [userHi] := by decide

/-- Claim C4: `build_messages` on a history list is the system message, then
the history verbatim, then the user message; in particular its length is
`2 + history.length`. -/
theorem build_messages_spec (system_prompt user_prompt : String)
    (history : List Message) :
    build_messages system_prompt user_prompt (some history) =
      Message.mk (some systemRole) (some system_prompt) ::
        (history ++ [Message.mk (some userRole) (some user_prompt)]) ∧
    (build_messages system_prompt user_prompt (some history)).length =
      2 + history.length := by
  have h : build_messages system_prompt user_prompt (some history) =
      Message.mk (some systemRole) (some system_prompt) ::
        (history ++ [Message.mk (some userRole) (some user_prompt)]) := by
    cases history with
    | nil => simp [build_messages]
    | cons m rest => simp [build_messages]
  refine ⟨h, ?_⟩
  rw [h]
  simp only [List.length_cons, List.length_append, List.length_nil]
  omega

/-- Claim C1: evaluation on two fully-populated results. The eighty-dash
divider occurs exactly once, between the leading blank line and the first
block; the two blocks are separated by a blank line only: no divider line
surrounded by blank lines occurs anywhere in the output. -/
theorem format_context_two_results_eval :
    format_context_from_results [res1, res2] =
      "\n\n" ++ dashes80 ++
        "Document 1 (Source: a.txt, Chunk: 0, Relevance: 0.900):\nalpha\n\n" ++
        "Document 2 (Source: b.txt, Chunk: 1, Relevance: 0.250):\nbeta" ∧
    ¬ ("\n\n" ++ dashes80 ++ "\n\n").data <:+:
        (format_context_from_results [res1, res2]).data := by
  constructor
  · decide
  · decide

/-- Claim C3: with at least two system messages in the history, the truncated
output starts with the last of them, and every system message other than the
last one is absent from the output. -/
theorem truncate_conversation_history_last_system_wins
    (history : List Message) (max_messages : Nat)
    (h2 : 2 ≤ (systemMessages history).length) :
    (truncate_conversation_history history max_messages).head? =
      (systemMessages history).getLast? ∧
    ∀ m ∈ history, m.role = some systemRole →
      some m ≠ (systemMessages history).getLast? →
      m ∉ truncate_conversation_history history max_messages := by
  have hsne : systemMessages history ≠ [] := by
    intro h
    rw [h] at h2
    simp at h2
  have hne : history ≠ [] := by
    intro h
    subst h
    simp [systemMessages] at hsne
  obtain ⟨s, hs⟩ : ∃ s, (systemMessages history).getLast? = some s := by
    cases hg : (systemMessages history).getLast? with
    | none => exact absurd (List.getLast?_eq_none_iff.mp hg) hsne
    | some z => exact ⟨z, rfl⟩
  have hlast : lastSysFrom none history = some s := by
    rw [lastSysFrom_eq_getLast, hs]
    rfl
  rw [truncate_conversation_history_eq history max_messages hne, hlast]
  constructor
  · rw [hs]
    rfl
  · intro m _ hrole hneq hcontra
    rcases List.mem_append.mp hcontra with h1 | h1
    · simp only [Option.toList_some, List.mem_singleton] at h1
      subst h1
      exact hneq hs.symm
    · exact role_ne_system_of_isOther (isOther_of_mem_keptOthers h1) hrole

/-- Claim C3, witness: a history with two system messages, evaluated. -/
theorem truncate_last_system_wins_witness :
    2 ≤ (systemMessages [sysA, userHi, sysB]).length ∧
    (truncate_conversation_history [sysA, userHi, sysB] 10).head? =
      (systemMessages [sysA, userHi, sysB]).getLast? :=
  ⟨by decide,
   (truncate_conversation_history_last_system_wins [sysA, userHi, sysB] 10
      (by decide)).1⟩

/-- Claim C5: a message lacking a role key never appears in the truncated
output, whatever the history and cap. -/
theorem truncate_conversation_history_drops_roleless
    (history : List Message) (max_messages : Nat) (m : Message)
    (hm : m.role = none) :
    m ∉ truncate_conversation_history history max_messages := by
  by_cases hne : history = []
  · subst hne
    simp [truncate_conversation_history]
  · rw [truncate_conversation_history_eq history max_messages hne]
    intro hcontra
    rcases List.mem_append.mp hcontra with h1 | h1
    · cases hsys : lastSysFrom none history with
      | none =>
        rw [hsys] at h1
        simp at h1
      | some s =>
        rw [hsys] at h1
        simp only [Option.toList_some, List.mem_singleton] at h1
        subst h1
        have hr := lastSysFrom_role history none (fun m' hm' => by cases hm') m hsys
        rw [hm] at hr
        cases hr
    · have hr := role_isSome_of_isOther (isOther_of_mem_keptOthers h1)
      rw [hm] at hr
      simp at hr

/-- Claim C5, witness: a roleless message is dropped from a concrete
history. -/
theorem truncate_drops_roleless_witness :
    noRoleMsg ∉ truncate_conversation_history [noRoleMsg, userHi] 10 :=
  truncate_conversation_history_drops_roleless [noRoleMsg, userHi] 10 noRoleMsg rfl

/-- Claim C8: the truncator is idempotent for every history and every cap,
including the degenerate cap zero, where the Python slice keeps everything on
both passes. -/
theorem truncate_conversation_history_idempotent
    (history : List Message) (max_messages : Nat) :
    truncate_conversation_history
        (truncate_conversation_history history max_messages) max_messages =
      truncate_conversation_history history max_messages := by
  by_cases hne : history = []
  · subst hne
    simp [truncate_conversation_history]
  · rw [truncate_conversation_history_eq history max_messages hne]
    by_cases ho :
        (lastSysFrom none history).toList ++ keptOthers history max_messages = []
    · rw [ho]
      simp [truncate_conversation_history]
    · have hk : ∀ m ∈ keptOthers history max_messages,
          ¬ m.role = some systemRole :=
        fun m hm => role_ne_system_of_isOther (isOther_of_mem_keptOthers hm)
      have hfil : ((lastSysFrom none history).toList ++
          keptOthers history max_messages).filter isOther =
          keptOthers history max_messages := by
        rw [List.filter_append, filter_keptOthers]
        cases hsys : lastSysFrom none history with
        | none => simp
        | some s =>
          have hrole := lastSysFrom_role history none
            (fun m' hm' => by cases hm') s hsys
          simp [isOther, hrole]
      have hlast2 : lastSysFrom none ((lastSysFrom none history).toList ++
          keptOthers history max_messages) = lastSysFrom none history := by
        cases hsys : lastSysFrom none history with
        | none =>
          simp only [Option.toList_none, List.nil_append]
          exact lastSysFrom_of_no_system _ hk none
        | some s =>
          have hrole := lastSysFrom_role history none
            (fun m' hm' => by cases hm') s hsys
          simp only [Option.toList_some, List.singleton_append]
          have h1 : lastSysFrom none (s :: keptOthers history max_messages) =
              lastSysFrom (some s) (keptOthers history max_messages) := by
            simp [lastSysFrom, hrole]
          rw [h1]
          exact lastSysFrom_of_no_system _ hk (some s)
      rw [truncate_conversation_history_eq _ max_messages ho, hlast2]
      congr 1
      rw [keptOthers_def ((lastSysFrom none history).toList ++
        keptOthers history max_messages), hfil]
      exact keptOthers_stable history max_messages

/-- Claim C9, counterexample: with cap zero and two user messages, the output
has length two, exceeding the claimed bound of one. -/
theorem truncate_length_bound_counterexample :
    ¬ ((truncate_conversation_history [userHi, userBye] 0).length ≤ 0 + 1) := by
  decide

/-- Claim C9 (amended): for a cap of at least one the output length is at most
the cap plus one; and for every cap the output holds at most one message with
the system role, which can only sit at position zero. -/
theorem truncate_conversation_history_invariants
    (history : List Message) (max_messages : Nat) :
    (1 ≤ max_messages →
      (truncate_conversation_history history max_messages).length ≤
        max_messages + 1) ∧
    (truncate_conversation_history history max_messages).countP
        (fun m => m.role == some systemRole) ≤ 1 ∧
    (∀ m ∈ (truncate_conversation_history history max_messages).tail,
      m.role ≠ some systemRole) := by
  by_cases hne : history = []
  · subst hne
    simp [truncate_conversation_history]
  · rw [truncate_conversation_history_eq history max_messages hne]
    have hk : ∀ m ∈ keptOthers history max_messages,
        ¬ m.role = some systemRole :=
      fun m hm => role_ne_system_of_isOther (isOther_of_mem_keptOthers hm)
    refine ⟨?_, ?_, ?_⟩
    · intro h1
      rw [List.length_append]
      have h2 := keptOthers_length_le history max_messages h1
      have h3 : (lastSysFrom none history).toList.length ≤ 1 := by
        cases lastSysFrom none history <;> simp
      omega
    · rw [List.countP_append]
      have hcount0 : (keptOthers history max_messages).countP
          (fun m => m.role == some systemRole) = 0 := by
        rw [List.countP_eq_zero]
        intro m hm
        simp only [beq_iff_eq]
        exact hk m hm
      have hcount1 : (lastSysFrom none history).toList.countP
          (fun m => m.role == some systemRole) ≤ 1 := by
        cases lastSysFrom none history with
        | none => simp
        | some s =>
          simp only [Option.toList_some, List.countP_cons, List.countP_nil]
          split <;> omega
      omega
    · cases hsys : lastSysFrom none history with
      | none =>
        simp only [Option.toList_none, List.nil_append]
        intro m hm
        exact hk m (List.mem_of_mem_tail hm)
      | some s =>
        simp only [Option.toList_some, List.singleton_append, List.tail_cons]
        exact hk

/-- Claim C9, witness: the amended length bound evaluated at cap one. -/
theorem truncate_invariants_witness :
    (truncate_conversation_history [userHi, userBye] 1).length ≤ 1 + 1 :=
  (truncate_conversation_history_invariants [userHi, userBye] 1).1 (by decide)

/-- When every placeholder of the template has a supplied value, formatting
succeeds and returns the substituted template. -/
theorem pyFormat_ok_of_all_present (tmpl : List TemplateTok)
    (env : List (String × String))
    (h : ∀ name, TemplateTok.ph name ∈ tmpl → (lookupArg env name).isSome) :
    pyFormat tmpl env = Except.ok (substTemplate tmpl env) := by
  induction tmpl with
  | nil => rfl
  | cons t rest ih =>
    have hrest : ∀ name, TemplateTok.ph name ∈ rest → (lookupArg env name).isSome :=
      fun name hmem => h name (List.mem_cons_of_mem t hmem)
    cases t with
    | lit s =>
      rw [show pyFormat (TemplateTok.lit s :: rest) env =
          (pyFormat rest env).map (fun t => s ++ t) from rfl]
      rw [ih hrest]
      rfl
    | ph name =>
      have hname : (lookupArg env name).isSome := h name (List.mem_cons_self _ _)
      cases hval : lookupArg env name with
      | none =>
        rw [hval] at hname
        cases hname
      | some v =>
        rw [show pyFormat (TemplateTok.ph name :: rest) env =
            (match lookupArg env name with
             | some v => (pyFormat rest env).map (fun t => v ++ t)
             | none => Except.error ("KeyError: " ++ name)) from rfl]
        rw [hval, ih hrest]
        rw [show substTemplate (TemplateTok.ph name :: rest) env =
            (lookupArg env name).getD ("") ++ substTemplate rest env from rfl]
        rw [hval]
        rfl

/-- When the value of some placeholder used by the template is missing,
formatting raises. -/
theorem pyFormat_error_of_missing (tmpl : List TemplateTok)
    (env : List (String × String)) (name : String)
    (hmem : TemplateTok.ph name ∈ tmpl)
    (hmiss : lookupArg env name = none) :
    ∃ e, pyFormat tmpl env = Except.error e := by
  induction tmpl with
  | nil => cases hmem
  | cons t rest ih =>
    cases t with
    | lit s =>
      have hmem' : TemplateTok.ph name ∈ rest := by
        cases hmem with
        | tail _ h => exact h
      obtain ⟨e, he⟩ := ih hmem'
      refine ⟨e, ?_⟩
      rw [show pyFormat (TemplateTok.lit s :: rest) env =
          (pyFormat rest env).map (fun t => s ++ t) from rfl]
      rw [he]
      rfl
    | ph n =>
      rw [show pyFormat (TemplateTok.ph n :: rest) env =
          (match lookupArg env n with
           | some v => (pyFormat rest env).map (fun t => v ++ t)
           | none => Except.error ("KeyError: " ++ n)) from rfl]
      cases hval : lookupArg env n with
      | none => exact ⟨"KeyError: " ++ n, rfl⟩
      | some v =>
        have hmem' : TemplateTok.ph name ∈ rest := by
          cases hmem with
          | head =>
            rw [hval] at hmiss
            cases hmiss
          | tail _ h => exact h
        obtain ⟨e, he⟩ := ih hmem'
        refine ⟨e, ?_⟩
        rw [he]
        rfl

/-- Claim C7: `format_system_prompt` and `format_user_prompt` return the fixed
template with the placeholders substituted, because they always pass values
for `company_name`, `context` and `query`; dropping any of those values from
the keyword environment makes the substitution raise a formatting error. -/
theorem format_prompts_spec :
    (∀ company_name context : String,
      format_system_prompt company_name context =
        Except.ok (substTemplate SYSTEM_PROMPT
          [("company_name", company_name), ("context", context)])) ∧
    (∀ query : String,
      format_user_prompt query =
        Except.ok (substTemplate USER_PROMPT [("query", query)])) ∧
    (∀ env, lookupArg env ("company_name") = none →
      ∃ e, pyFormat SYSTEM_PROMPT env = Except.error e) ∧
    (∀ env, lookupArg env ("context") = none →
      ∃ e, pyFormat SYSTEM_PROMPT env = Except.error e) ∧
    (∀ env, lookupArg env ("query") = none →
      ∃ e, pyFormat USER_PROMPT env = Except.error e) := by
  refine ⟨?_, ?_, ?_, ?_, ?_⟩
  · intro company_name context
    apply pyFormat_ok_of_all_present
    intro name hmem
    simp only [SYSTEM_PROMPT, List.mem_cons, List.not_mem_nil, or_false,
      reduceCtorEq, false_or, TemplateTok.ph.injEq] at hmem
    rcases hmem with h | h | h | h <;> subst h <;> simp [lookupArg]
  · intro query
    apply pyFormat_ok_of_all_present
    intro name hmem
    simp only [USER_PROMPT, List.mem_cons, List.not_mem_nil, or_false,
      reduceCtorEq, false_or, TemplateTok.ph.injEq] at hmem
    subst hmem
    simp [lookupArg]
  · intro env hmiss
    exact pyFormat_error_of_missing SYSTEM_PROMPT env ("company_name")
      (by decide) hmiss
  · intro env hmiss
    exact pyFormat_error_of_missing SYSTEM_PROMPT env ("context")
      (by decide) hmiss
  · intro env hmiss
    exact pyFormat_error_of_missing USER_PROMPT env ("query")
      (by decide) hmiss

/-- Claim C7, witness: formatting the user prompt with a concrete query
succeeds with the substituted template, and formatting with an empty keyword
environment raises. -/
theorem format_prompts_spec_witness :
    format_user_prompt ("hello") =
      Except.ok (substTemplate USER_PROMPT [("query", "hello")]) ∧
    ∃ e, pyFormat USER_PROMPT [] = Except.error e :=
  ⟨format_prompts_spec.2.1 ("hello"), format_prompts_spec.2.2.2.2 [] rfl⟩

/-- Claim C10: a result whose metadata lacks both keys still renders, with the
defaults `Unknown` and `N/A` in its block, and the formatter returns the
assembled string rather than failing. -/
theorem format_context_missing_metadata_defaults (r : RetrievalResult)
    (hf : r.metadata.file_name = none) (hc : r.metadata.chunk_index = none) :
    context_part 1 r =
      "Document 1 (Source: Unknown, Chunk: N/A, Relevance: " ++
        formatScore3 r.score ++ "):\n" ++ r.text ∧
    format_context_from_results [r] = "\n\n" ++ dashes80 ++ context_part 1 r := by
  constructor
  · unfold context_part
    rw [hf, hc]
    have hP : ("Document " ++ toString 1 ++ " (Source: " ++ "Unknown" ++
        ", Chunk: " ++ "N/A" ++ ", Relevance: " : String) =
        "Document 1 (Source: Unknown, Chunk: N/A, Relevance: " := by decide
    exact congrArg
      (fun x : String => x ++ formatScore3 r.score ++ "):\n" ++ r.text) hP
  · rfl

/-- Claim C10, witness: a concrete result with empty metadata, evaluated. -/
theorem format_context_missing_metadata_witness :
    format_context_from_results [resNoMeta] =
      "\n\n" ++ dashes80 ++ context_part 1 resNoMeta :=
  (format_context_missing_metadata_defaults resNoMeta rfl rfl).2
